import Mathlib

/-!
Shallow embedding of the notebook
`assignment2/NetworkVisualization-TensorFlow.ipynb`.

The notebook is glue code around a pretrained SqueezeNet model: it computes
saliency maps, fooling images and class visualizations from the model's
gradients with respect to input pixels.  We embed the notebook's own code
faithfully over `Fin`-indexed arrays of exact scalars; the TensorFlow session
(score evaluation, symbolic gradients via `tf.gradients` plus `sess.run`) and
the scipy Gaussian kernel are framework primitives and enter the embedding as
oracle parameters, with their documented mathematical properties taken as
hypotheses where a claim needs them.

Array conventions: numpy arrays of shape (H, W, 3) become `Fin H → Fin W →
Fin 3 → ℚ` (or `→ ℝ` for the fooling-image pipeline, whose update divides by
an L2 norm); singleton batch axes of shape-(1, H, W, 3) arrays are dropped.
-/

/-- A preprocessed image of shape (H, W, 3) with exact rational entries. -/
abbrev ImgQ (H W : ℕ) : Type := Fin H → Fin W → Fin 3 → ℚ

/-- A batch of images, shape (N, H, W, 3). -/
abbrev ImgB (N H W : ℕ) : Type := Fin N → Fin H → Fin W → Fin 3 → ℚ

/-- A real-valued image of shape (H, W, 3), used by the fooling-image
pipeline where the update step divides by a Euclidean norm. -/
abbrev ImgR (H W : ℕ) : Type := Fin H → Fin W → Fin 3 → ℝ

/-- Reduce an integer index modulo the axis length `n`, as numpy does for
`np.roll`. -/
def wrapIdx (n : ℕ) (hn : 0 < n) (k : ℤ) : Fin n :=
  ⟨(k % (n : ℤ)).toNat, by
    have h0 : (0 : ℤ) < (n : ℤ) := by exact_mod_cast hn
    have h1 : 0 ≤ k % (n : ℤ) := Int.emod_nonneg k (by omega)
    have h2 : k % (n : ℤ) < (n : ℤ) := Int.emod_lt_of_pos k h0
    omega⟩

/-- `np.roll` along one axis: entry `i` of the output is entry `(i - s) mod n`
of the input. -/
def np_roll {α : Type} {n : ℕ} (s : ℤ) (X : Fin n → α) : Fin n → α :=
  fun i => X (wrapIdx n i.pos ((i.val : ℤ) - s))

/-- `np.roll(·, s, axis=1)` on a (1, H, W, 3) array with the singleton batch
axis dropped: rolls the `H` axis. -/
def np_roll_ax1 {α : Type} {H W : ℕ} (s : ℤ) (X : Fin H → Fin W → α) :
    Fin H → Fin W → α :=
  np_roll s X

/-- `np.roll(·, s, axis=2)` on a (1, H, W, 3) array with the singleton batch
axis dropped: rolls the `W` axis. -/
def np_roll_ax2 {α : Type} {H W : ℕ} (s : ℤ) (X : Fin H → Fin W → α) :
    Fin H → Fin W → α :=
  fun h => np_roll s (X h)

/-- `np.clip(X, lo, hi)` with per-channel bounds `lo, hi` of shape (3,)
broadcast over the spatial axes, as in the class-visualization loop:
numpy applies the lower bound first, then the upper bound. -/
def np_clip_channels {H W : ℕ} (lo hi : Fin 3 → ℚ) (X : ImgQ H W) : ImgQ H W :=
  fun h w c => min (max (X h w c) (lo c)) (hi c)

/-- `np.max(·, axis)` over a length-3 channel axis. -/
def np_max3 (v : Fin 3 → ℚ) : ℚ :=
  max (v 0) (max (v 1) (v 2))

/-- `np.max(A, axis=3)` for an (N, H, W, 3) array. -/
def np_max_ax3 {N H W : ℕ} (A : ImgB N H W) : Fin N → Fin H → Fin W → ℚ :=
  fun i h w => np_max3 (A i h w)

/-- `np.abs` applied elementwise to an (N, H, W, 3) array. -/
def np_abs {N H W : ℕ} (A : ImgB N H W) : ImgB N H W :=
  fun i h w c => |A i h w c|

/-! ### Saliency maps (`compute_saliency_maps`)

The pretrained SqueezeNet model and the TensorFlow session are the external
framework.  We model them by two oracles: the score tensor `classifier`
(`model.classifier` evaluated by `sess.run` with `model.image` fed `X`), and
the gradient oracle `dScore`, where `dScore X j k` is the array
`∂ classifier[j, k] / ∂ image` evaluated at `X` — exactly what
`sess.run(tf.gradients(model.classifier[j, k], model.image), ...)` returns. -/

structure SaliencyModel (N H W : ℕ) : Type where
  classifier : ImgB N H W → Fin N → Fin 1000 → ℚ
  dScore : ImgB N H W → Fin N → Fin 1000 → ImgB N H W

/-- The `tf.gather_nd(model.classifier, tf.stack((tf.range(N), model.labels), axis=1))`
line: `correct_scores[i] = classifier[i, y[i]]`. -/
def correct_scores {N H W : ℕ} (m : SaliencyModel N H W) (X : ImgB N H W)
    (y : Fin N → Fin 1000) : Fin N → ℚ :=
  fun i => m.classifier X i (y i)

/-- The `tf.reduce_sum(tf.gradients(ys=correct_scores, xs=model.image), axis=0)`
line, evaluated by `sess.run`.  `tf.gradients` with a non-scalar `ys`
differentiates the sum of the entries of `ys`, and returns a singleton list
(one entry per tensor in `xs`) which the `reduce_sum` over axis 0 collapses;
the value is therefore the gradient of `∑ i, classifier[i, y[i]]` with
respect to the fed image. -/
def tf_gradients_correct_sum {N H W : ℕ} (m : SaliencyModel N H W)
    (X : ImgB N H W) (y : Fin N → Fin 1000) : ImgB N H W :=
  fun i h w c => ∑ j, m.dScore X j (y j) i h w c

/-- `compute_saliency_maps` from the notebook: the gradient of the summed
correct-class scores with respect to the input image, in absolute value,
maximized over the channel axis (`np.max(np.abs(saliency), axis=3)`). -/
def compute_saliency_maps {N H W : ℕ} (m : SaliencyModel N H W)
    (X : ImgB N H W) (y : Fin N → Fin 1000) : Fin N → Fin H → Fin W → ℚ :=
  np_max_ax3 (np_abs (tf_gradients_correct_sum m X y))

/-- Spec-side description of the saliency map (for the refinement claim C1):
for each example `i`, the gradient of the scalar score of the correct class
`classifier[i, y[i]]` with respect to the pixels, elementwise absolute value,
maximized over the 3 channels. -/
def saliency_spec {N H W : ℕ} (m : SaliencyModel N H W) (X : ImgB N H W)
    (y : Fin N → Fin 1000) : Fin N → Fin H → Fin W → ℚ :=
  fun i h w => np_max3 (fun c => |m.dScore X i (y i) i h w c|)

/-! ### Fooling images (`make_fooling_image`)

The session oracles: `gradTarget ty X` is the value of
`tf.gradients(model.classifier[0, ty], model.image)` at the fed image `X`
(the singleton list dimension and the singleton batch axis are dropped), and
`argmaxScores X` is `np.argmax(sess.run(model.classifier, {model.image: X}))`.
The update divides by `tf.norm` — the Euclidean norm of the whole gradient —
so this pipeline lives over real-valued images. -/

structure FoolSession (H W : ℕ) : Type where
  gradTarget : ℕ → ImgR H W → ImgR H W
  argmaxScores : ImgR H W → ℕ

/-- Sum of squared entries of an (H, W, 3) array. -/
def sumSq {H W : ℕ} (g : ImgR H W) : ℝ :=
  ∑ h, ∑ w, ∑ c, g h w c ^ 2

/-- `tf.norm(g)`: the Euclidean (Frobenius) norm over all entries. -/
noncomputable def l2norm {H W : ℕ} (g : ImgR H W) : ℝ :=
  Real.sqrt (sumSq g)

/-- The `learning_rate = 1` constant of `make_fooling_image`. -/
def fooling_learning_rate : ℝ := 1

/-- The update direction `dX = learning_rate * g / tf.norm(g)` of
`make_fooling_image`. -/
noncomputable def fooling_dX {H W : ℕ} (g : ImgR H W) : ImgR H W :=
  fun h w c => fooling_learning_rate * g h w c / l2norm g

/-- One loop body of `make_fooling_image`:
`X_fooling += dX_val`, with `dX_val` the evaluation of `dX` at the current
image. -/
noncomputable def fooling_step {H W : ℕ} (m : FoolSession H W) (ty : ℕ)
    (X : ImgR H W) : ImgR H W :=
  fun h w c => X h w c + fooling_dX (m.gradTarget ty X) h w c

/-- The `n_iterations = 100` constant of `make_fooling_image`. -/
def n_iterations : ℕ := 100

/-- The `while (i < n_iterations) & (y != target_y)` loop, with the remaining
iteration budget as fuel.  Returns the final state together with the number
of update steps performed (the final value of `i`). -/
def foolingLoop {σ : Type} (done : σ → Bool) (step : σ → σ) :
    ℕ → σ → σ × ℕ
  | 0, s => (s, 0)
  | k + 1, s =>
      if done s then (s, 0)
      else
        ((foolingLoop done step k (step s)).1, (foolingLoop done step k (step s)).2 + 1)

/-- `make_fooling_image` from the notebook: starting from `X_fooling = X.copy()`,
repeat the normalized gradient-ascent step until the model's argmax prediction
equals `target_y` or `n_iterations` steps have been made. -/
noncomputable def make_fooling_image {H W : ℕ} (m : FoolSession H W)
    (target_y : ℕ) (X : ImgR H W) : ImgR H W :=
  (foolingLoop (fun Z => m.argmaxScores Z == target_y) (fooling_step m target_y)
    n_iterations X).1

/-- The number of update steps `make_fooling_image` performs (the final value
of the loop counter `i`). -/
noncomputable def make_fooling_image_steps {H W : ℕ} (m : FoolSession H W)
    (target_y : ℕ) (X : ImgR H W) : ℕ :=
  (foolingLoop (fun Z => m.argmaxScores Z == target_y) (fooling_step m target_y)
    n_iterations X).2

/-- `make_fooling_image` with the caller's buffer made explicit, to state the
frame claim C8.  The state is the pair (caller's array `X`, `X_fooling`);
`X_fooling = X.copy()` allocates a fresh buffer with the same contents, and
every `X_fooling += ...` of the loop writes only the second component.
Returns (the function's return value, the caller's buffer after the call). -/
noncomputable def make_fooling_image_call {H W : ℕ} (m : FoolSession H W)
    (target_y : ℕ) (X : ImgR H W) : ImgR H W × ImgR H W :=
  let r := foolingLoop (fun s : ImgR H W × ImgR H W => m.argmaxScores s.2 == target_y)
    (fun s => (s.1, fooling_step m target_y s.2)) n_iterations (X, X)
  (r.1.2, r.1.1)

/-! ### Class visualization (`create_class_visualization`)

Oracles: `gradLoss ty l2_reg X` is the value of
`tf.gradients(model.classifier[0, ty] - l2_reg * tf.norm(model.image), model.image)`
at the fed image (singleton list and batch axes dropped); the random draws of
`np.random.rand` and `np.random.randint` are supplied as the parameters
`rand` and `jit`; and scipy's `gaussian_filter1d` is a 1-D correlation with a
truncated, normalized Gaussian kernel (reflect boundary handling), which we
represent by a weight matrix depending on sigma — the row-stochasticity of
that matrix is taken as a hypothesis where a claim needs it. -/

structure VisModel : Type where
  gradLoss : ℕ → ℚ → ImgQ 224 224 → ImgQ 224 224

/-- Environment of the class-visualization loop: the SqueezeNet constants,
the scipy kernel families (indexed by sigma), the gradient oracle for the
chosen target class and regularization strength, the learning rate, the
jitter offsets drawn at each iteration, and `blur_every`. -/
structure VisEnv (H W : ℕ) : Type where
  mean : Fin 3 → ℚ
  std : Fin 3 → ℚ
  kH : ℚ → Fin H → Fin H → ℚ
  kW : ℚ → Fin W → Fin W → ℚ
  g : ImgQ H W → ImgQ H W
  lr : ℚ
  jit : ℕ → ℤ × ℤ
  blur_every : ℕ

/-- The per-channel lower clip bound `-SQUEEZENET_MEAN / SQUEEZENET_STD`. -/
def squeeze_lo (mean std : Fin 3 → ℚ) : Fin 3 → ℚ :=
  fun c => -(mean c) / std c

/-- The per-channel upper clip bound `(1.0 - SQUEEZENET_MEAN) / SQUEEZENET_STD`. -/
def squeeze_hi (mean std : Fin 3 → ℚ) : Fin 3 → ℚ :=
  fun c => (1 - mean c) / std c

/-- `scipy.ndimage.filters.gaussian_filter1d(X, sigma, axis=1)` on a
(1, H, W, 3) array with the batch axis dropped: filtering along `H`, as
application of the kernel weight matrix `k`. -/
def gaussian_filter1d_ax1 {H W : ℕ} (k : Fin H → Fin H → ℚ) (X : ImgQ H W) :
    ImgQ H W :=
  fun h w c => ∑ h2, k h h2 * X h2 w c

/-- `gaussian_filter1d(X, sigma, axis=2)`: filtering along `W`. -/
def gaussian_filter1d_ax2 {H W : ℕ} (k : Fin W → Fin W → ℚ) (X : ImgQ H W) :
    ImgQ H W :=
  fun h w c => ∑ w2, k w w2 * X h w2 c

/-- `blur_image` from the notebook: `gaussian_filter1d` along axis 1, then
along axis 2 (the source's default sigma is 1; the class-visualization loop
calls it with sigma = 0.5). -/
def blur_image {H W : ℕ} (kH : ℚ → Fin H → Fin H → ℚ)
    (kW : ℚ → Fin W → Fin W → ℚ) (X : ImgQ H W) (sigma : ℚ) : ImgQ H W :=
  gaussian_filter1d_ax2 (kW sigma) (gaussian_filter1d_ax1 (kH sigma) X)

/-- Jitter, gradient-ascent step, un-jitter: the part of a
`create_class_visualization` iteration before the clip-and-blur regularizer.
(The source's `Xi = X.copy()` is a dead store and is omitted.) -/
def class_vis_core {H W : ℕ} (e : VisEnv H W) (t : ℕ) (X : ImgQ H W) :
    ImgQ H W :=
  let ox := (e.jit t).1
  let oy := (e.jit t).2
  let Xj := np_roll_ax2 oy (np_roll_ax1 ox X)
  let Xg := fun h w c => Xj h w c + e.lr * e.g Xj h w c
  np_roll_ax2 (-oy) (np_roll_ax1 (-ox) Xg)

/-- One full iteration `t` of the `create_class_visualization` loop: the core
step, then `np.clip` to the per-channel SqueezeNet range, then — exactly when
`t % blur_every == 0` — `blur_image(X, sigma=0.5)`. -/
def class_vis_iter {H W : ℕ} (e : VisEnv H W) (t : ℕ) (X : ImgQ H W) :
    ImgQ H W :=
  let Xc := np_clip_channels (squeeze_lo e.mean e.std) (squeeze_hi e.mean e.std)
    (class_vis_core e t X)
  if t % e.blur_every == 0 then blur_image e.kH e.kW Xc (1 / 2) else Xc

/-- The `for t in range(num_iterations)` loop, with `t` the current iteration
index and the second argument the number of iterations left. -/
def class_vis_run {H W : ℕ} (e : VisEnv H W) : ℕ → ℕ → ImgQ H W → ImgQ H W
  | _, 0, X => X
  | t, k + 1, X => class_vis_run e (t + 1) k (class_vis_iter e t X)

/-- Modelled from the spec: `preprocess_image` is imported from
`deeplearning.image_utils`, which is not among the sources.  The notebook
describes it as scaling pixel values and subtracting the pixelwise mean and
dividing by the pixelwise standard deviation, per channel. -/
def preprocess_image {H W : ℕ} (mean std : Fin 3 → ℚ)
    (X : Fin H → Fin W → Fin 3 → ℚ) : ImgQ H W :=
  fun h w c => (X h w c / 255 - mean c) / std c

/-- The initial image of `create_class_visualization`:
`X = 255 * np.random.rand(224, 224, 3); X = preprocess_image(X)[None]`,
with `rand` the array drawn by `np.random.rand` (entries in [0, 1)). -/
def class_vis_X0 (mean std : Fin 3 → ℚ)
    (rand : Fin 224 → Fin 224 → Fin 3 → ℚ) : ImgQ 224 224 :=
  preprocess_image mean std (fun h w c => 255 * rand h w c)

/-- `create_class_visualization` from the notebook.  The keyword arguments
default to l2_reg 1e-3, learning_rate 25, num_iterations 100, blur_every 10
in the source; they are explicit parameters here (`max_jitter` only bounds
the offsets drawn into `jit`, and `show_every` only controls plotting, so
neither affects the returned array). -/
def create_class_visualization (target_y : ℕ) (model : VisModel)
    (mean std : Fin 3 → ℚ)
    (kH kW : ℚ → Fin 224 → Fin 224 → ℚ)
    (rand : Fin 224 → Fin 224 → Fin 3 → ℚ) (jit : ℕ → ℤ × ℤ)
    (l2_reg learning_rate : ℚ) (num_iterations blur_every : ℕ) :
    ImgQ 224 224 :=
  class_vis_run
    ⟨mean, std, kH, kW, model.gradLoss target_y l2_reg, learning_rate, jit, blur_every⟩
    0 num_iterations (class_vis_X0 mean std rand)

/-- `X` lies in the per-channel clip range
`[-SQUEEZENET_MEAN/SQUEEZENET_STD, (1 - SQUEEZENET_MEAN)/SQUEEZENET_STD]`. -/
def in_clip_range {H W : ℕ} (mean std : Fin 3 → ℚ) (X : ImgQ H W) : Prop :=
  ∀ h w c, squeeze_lo mean std c ≤ X h w c ∧ X h w c ≤ squeeze_hi mean std c

/-- A kernel weight matrix with nonnegative entries whose rows sum to 1 —
the documented shape of scipy's normalized Gaussian filter (with reflect
boundary handling, the weights reaching each output entry are a permuted
copy of the kernel and still sum to 1). -/
def row_stochastic {n : ℕ} (k : Fin n → Fin n → ℚ) : Prop :=
  (∀ i j, 0 ≤ k i j) ∧ ∀ i, ∑ j, k i j = 1

/-! ### The model-loading cell -/

/-- The `SAVE_PATH` constant of the loading cell. -/
def SAVE_PATH : String := "deeplearning/datasets/squeezenet.ckpt"

/-- The model-loading cell, parametrized by the state of the filesystem
(`os.path.exists`): `if not os.path.exists(SAVE_PATH): raise ValueError(...)`,
then `model = SqueezeNet(save_path=SAVE_PATH, sess=sess)`.  A raised
`ValueError` is the `Except.error` case. -/
def squeezenet_load_cell (os_path_exists : String → Bool) : Except String Unit :=
  if !os_path_exists SAVE_PATH then
    Except.error ("You need to download SqueezeNet!")
  else
    Except.ok ()

/-! ### Concrete instances used by witness theorems -/

/-- A concrete one-pixel saliency model: the score gradients are the shifted
input pixels. -/
def salWitModel : SaliencyModel 1 1 1 :=
  ⟨fun _ _ _ => 0, fun X _ _ i h w c => X i h w c + 1⟩

def salWitX : ImgB 1 1 1 := fun _ _ _ c => (c.val : ℚ)

def salWitY : Fin 1 → Fin 1000 := fun _ => ⟨5, by omega⟩

/-- A concrete one-pixel session whose gradient is the all-ones array and
whose prediction is always class 0. -/
def foolWitSession : FoolSession 1 1 :=
  ⟨fun _ _ => fun _ _ _ => 1, fun _ => 0⟩

def foolWitX : ImgR 1 1 := fun _ _ _ => 0

/-- The identity kernel matrix, a concrete row-stochastic filter. -/
def kIdent {n : ℕ} : ℚ → Fin n → Fin n → ℚ :=
  fun _ i j => if j = i then 1 else 0

/-- The identity kernel at the 224-pixel axis length. -/
def kIdent224 : ℚ → Fin 224 → Fin 224 → ℚ := kIdent

def visModelWit : VisModel := ⟨fun _ _ X => X⟩

def visEnvWit : VisEnv 1 1 :=
  ⟨fun _ => 0, fun _ => 1, kIdent, kIdent, fun X => X, 1, fun _ => (0, 0), 10⟩

def visWitX : ImgQ 1 1 := fun _ _ _ => 0

def randWit : Fin 224 → Fin 224 → Fin 3 → ℚ := fun _ _ _ => 1 / 2

theorem wrapIdx_congr {n : ℕ} (hn hn' : 0 < n) {a b : ℤ}
    (h : a % (n : ℤ) = b % (n : ℤ)) : wrapIdx n hn a = wrapIdx n hn' b := by
  apply Fin.ext
  show (a % (n : ℤ)).toNat = (b % (n : ℤ)).toNat
  rw [h]

theorem wrapIdx_natCast {n : ℕ} (hn : 0 < n) (i : Fin n) :
    wrapIdx n hn (i.val : ℤ) = i := by
  apply Fin.ext
  show ((i.val : ℤ) % (n : ℤ)).toNat = i.val
  rw [Int.emod_eq_of_lt (by exact_mod_cast Nat.zero_le _) (by exact_mod_cast i.isLt)]
  exact Int.toNat_natCast i.val

theorem wrapIdx_coe {n : ℕ} (hn : 0 < n) (k : ℤ) :
    ((wrapIdx n hn k : Fin n).val : ℤ) = k % (n : ℤ) := by
  show (((k % (n : ℤ)).toNat : ℕ) : ℤ) = k % (n : ℤ)
  exact Int.toNat_of_nonneg (Int.emod_nonneg k (by omega))

theorem np_roll_neg_np_roll {α : Type} {n : ℕ} (s : ℤ) (v : Fin n → α) :
    np_roll (-s) (np_roll s v) = v := by
  funext i
  show v (wrapIdx n _ (((wrapIdx n i.pos ((i.val : ℤ) - -s)).val : ℤ) - s)) = v i
  congr 1
  have hkey : (((i.val : ℤ) + s) % (n : ℤ) - s) % (n : ℤ) = (i.val : ℤ) % (n : ℤ) := by
    rw [Int.sub_emod (((i.val : ℤ) + s) % (n : ℤ)) s,
      Int.emod_emod_of_dvd _ dvd_rfl, ← Int.sub_emod, add_sub_cancel_right]
  calc wrapIdx n _ (((wrapIdx n i.pos ((i.val : ℤ) - -s)).val : ℤ) - s)
      = wrapIdx n i.pos ((i.val : ℤ)) := by
        apply wrapIdx_congr
        rw [wrapIdx_coe, sub_neg_eq_add]
        exact hkey
    _ = i := wrapIdx_natCast i.pos i

theorem np_roll_ax1_cancel {α : Type} {H W : ℕ} (s : ℤ) (X : Fin H → Fin W → α) :
    np_roll_ax1 (-s) (np_roll_ax1 s X) = X :=
  np_roll_neg_np_roll s X

theorem np_roll_ax2_cancel {α : Type} {H W : ℕ} (s : ℤ) (X : Fin H → Fin W → α) :
    np_roll_ax2 (-s) (np_roll_ax2 s X) = X := by
  funext h
  show np_roll (-s) (np_roll s (X h)) = X h
  exact np_roll_neg_np_roll s (X h)

theorem np_roll_ax1_ax2_comm {α : Type} {H W : ℕ} (s t : ℤ)
    (X : Fin H → Fin W → α) :
    np_roll_ax1 s (np_roll_ax2 t X) = np_roll_ax2 t (np_roll_ax1 s X) :=
  rfl

/-- C7: the per-iteration jitter in `create_class_visualization` is exactly
self-inverse: rolling by `ox` along axis 1 and `oy` along axis 2 and then
rolling the result by `-ox` along axis 1 and `-oy` along axis 2 restores the
original array, so the jitter introduces no net translation of the image
across an iteration. -/
theorem jitter_roll_roundtrip {α : Type} {H W : ℕ} (X : Fin H → Fin W → α)
    (ox oy : ℤ) :
    np_roll_ax2 (-oy) (np_roll_ax1 (-ox) (np_roll_ax2 oy (np_roll_ax1 ox X))) = X := by
  calc np_roll_ax2 (-oy) (np_roll_ax1 (-ox) (np_roll_ax2 oy (np_roll_ax1 ox X)))
      = np_roll_ax2 (-oy) (np_roll_ax2 oy (np_roll_ax1 (-ox) (np_roll_ax1 ox X))) := by
        rw [np_roll_ax1_ax2_comm]
    _ = np_roll_ax2 (-oy) (np_roll_ax2 oy X) := by rw [np_roll_ax1_cancel]
    _ = X := np_roll_ax2_cancel oy X

/-- C1: under the batchwise-independence property of the network (the scores
of example `j` do not depend on the pixels of example `i` for `j ≠ i`, so the
cross-example gradient blocks vanish), `compute_saliency_maps` returns for
each example `i` the gradient of the scalar unnormalized score of the correct
class `classifier[i, y[i]]` with respect to the input pixels, elementwise in
absolute value and then maximized over the 3 color channels. -/
theorem compute_saliency_maps_per_example {N H W : ℕ} (m : SaliencyModel N H W)
    (X : ImgB N H W) (y : Fin N → Fin 1000)
    (hloc : ∀ j i : Fin N, j ≠ i → ∀ h w c, m.dScore X j (y j) i h w c = 0) :
    compute_saliency_maps m X y = saliency_spec m X y := by
  funext i h w
  unfold compute_saliency_maps saliency_spec np_max_ax3 np_abs
  congr 1
  funext c
  congr 1
  unfold tf_gradients_correct_sum
  exact Finset.sum_eq_single i (fun j _ hj => hloc j i hj h w c)
    (fun hi => absurd (Finset.mem_univ i) hi)

/-- Witness for C1 at a concrete one-example model (the independence
hypothesis holds because there is a single example). -/
theorem compute_saliency_maps_per_example_witness :
    compute_saliency_maps salWitModel salWitX salWitY
      = saliency_spec salWitModel salWitX salWitY :=
  compute_saliency_maps_per_example salWitModel salWitX salWitY
    (fun j i hji => absurd (Subsingleton.elim j i) hji)

/-- C9: every entry of the array returned by `compute_saliency_maps` is
nonnegative, being a maximum of absolute values.  (The channel axis is
reduced away: the result has type `Fin N → Fin H → Fin W → ℚ`, i.e. shape
(N, H, W).) -/
theorem compute_saliency_maps_nonneg {N H W : ℕ} (m : SaliencyModel N H W)
    (X : ImgB N H W) (y : Fin N → Fin 1000) (i : Fin N) (h : Fin H) (w : Fin W) :
    0 ≤ compute_saliency_maps m X y i h w := by
  unfold compute_saliency_maps np_max_ax3 np_abs np_max3
  exact le_trans (abs_nonneg _) (le_max_left _ _)

theorem sumSq_nonneg {H W : ℕ} (g : ImgR H W) : 0 ≤ sumSq g :=
  Finset.sum_nonneg fun _ _ => Finset.sum_nonneg fun _ _ =>
    Finset.sum_nonneg fun _ _ => sq_nonneg _

theorem sumSq_fooling_dX {H W : ℕ} (g : ImgR H W) (hg : sumSq g ≠ 0) :
    sumSq (fooling_dX g) = 1 := by
  have hs : l2norm g ^ 2 = sumSq g := Real.sq_sqrt (sumSq_nonneg g)
  have h1 : sumSq (fooling_dX g) = sumSq g / l2norm g ^ 2 := by
    unfold sumSq fooling_dX fooling_learning_rate
    simp only [one_mul, div_pow, ← Finset.sum_div]
  rw [h1, hs, div_self hg]

/-- C2: each applied update of `make_fooling_image` increments the image by
`learning_rate * g / tf.norm(g)` where `g` is the gradient of the
target-class score `classifier[0, target_y]`; with the source's
`learning_rate = 1` and a nonzero gradient, the applied increment has L2
norm 1. -/
theorem make_fooling_image_update_normalized {H W : ℕ} (m : FoolSession H W)
    (ty : ℕ) (X : ImgR H W) (hg : sumSq (m.gradTarget ty X) ≠ 0) :
    (∀ h w c, fooling_step m ty X h w c
        = X h w c + fooling_learning_rate * m.gradTarget ty X h w c
            / l2norm (m.gradTarget ty X))
    ∧ l2norm (fun h w c => fooling_step m ty X h w c - X h w c) = 1 := by
  constructor
  · intro h w c; rfl
  · have hd : (fun h w c => fooling_step m ty X h w c - X h w c)
        = fooling_dX (m.gradTarget ty X) := by
      funext h w c
      show X h w c + fooling_dX (m.gradTarget ty X) h w c - X h w c = _
      ring
    rw [hd]
    unfold l2norm
    rw [sumSq_fooling_dX _ hg, Real.sqrt_one]

/-- Witness for C2 at a concrete nonzero gradient. -/
theorem make_fooling_image_update_normalized_witness :
    sumSq (foolWitSession.gradTarget 0 foolWitX) ≠ 0
    ∧ l2norm (fun h w c =>
        fooling_step foolWitSession 0 foolWitX h w c - foolWitX h w c) = 1 := by
  have hg : sumSq (foolWitSession.gradTarget 0 foolWitX) ≠ 0 := by
    norm_num [foolWitSession, sumSq, Fin.sum_univ_one, Fin.sum_univ_three]
  exact ⟨hg, (make_fooling_image_update_normalized foolWitSession 0 foolWitX hg).2⟩

theorem foolingLoop_of_done {σ : Type} (done : σ → Bool) (step : σ → σ) (s : σ)
    (h : done s = true) : ∀ k, foolingLoop done step k s = (s, 0)
  | 0 => rfl
  | k + 1 => by simp [foolingLoop, h]

theorem foolingLoop_count_le {σ : Type} (done : σ → Bool) (step : σ → σ) :
    ∀ (k : ℕ) (s : σ), (foolingLoop done step k s).2 ≤ k
  | 0, s => le_refl 0
  | k + 1, s => by
      by_cases h : done s
      · simp [foolingLoop, h]
      · simp only [foolingLoop, if_neg h]
        exact Nat.succ_le_succ (foolingLoop_count_le done step k (step s))

theorem foolingLoop_done_of_count_lt {σ : Type} (done : σ → Bool) (step : σ → σ) :
    ∀ (k : ℕ) (s : σ), (foolingLoop done step k s).2 < k →
      done (foolingLoop done step k s).1 = true
  | 0, s, h => absurd h (Nat.not_lt_zero _)
  | k + 1, s, h => by
      by_cases hd : done s
      · simp [foolingLoop, hd]
      · simp only [foolingLoop, if_neg hd] at h ⊢
        exact foolingLoop_done_of_count_lt done step k (step s) (by omega)

/-- C3: the gradient-ascent loop of `make_fooling_image` always terminates
after at most `n_iterations = 100` update steps; it exits as soon as the
model's argmax prediction equals `target_y` (so fewer than 100 steps imply
the returned image is classified as `target_y`, and a fooled starting image
is returned unchanged after 0 steps). -/
theorem make_fooling_image_terminates {H W : ℕ} (m : FoolSession H W)
    (ty : ℕ) (X : ImgR H W) :
    make_fooling_image_steps m ty X ≤ n_iterations
    ∧ (make_fooling_image_steps m ty X < n_iterations →
        m.argmaxScores (make_fooling_image m ty X) = ty)
    ∧ (m.argmaxScores X = ty →
        make_fooling_image m ty X = X ∧ make_fooling_image_steps m ty X = 0) := by
  refine ⟨foolingLoop_count_le _ _ _ _, ?_, ?_⟩
  · intro hlt
    have hdone := foolingLoop_done_of_count_lt
      (fun Z => m.argmaxScores Z == ty) (fooling_step m ty) n_iterations X hlt
    exact beq_iff_eq.mp hdone
  · intro h0
    have hdone : (fun Z => m.argmaxScores Z == ty) X = true := beq_iff_eq.mpr h0
    have hloop := foolingLoop_of_done (fun Z => m.argmaxScores Z == ty)
      (fooling_step m ty) X hdone n_iterations
    constructor
    · show (foolingLoop _ _ n_iterations X).1 = X
      rw [hloop]
    · show (foolingLoop _ _ n_iterations X).2 = 0
      rw [hloop]

/-- Witness for C3 at a session that already predicts the target class. -/
theorem make_fooling_image_terminates_witness :
    make_fooling_image_steps foolWitSession 0 foolWitX ≤ n_iterations
    ∧ foolWitSession.argmaxScores (make_fooling_image foolWitSession 0 foolWitX) = 0
    ∧ make_fooling_image foolWitSession 0 foolWitX = foolWitX := by
  obtain ⟨h1, h2, h3⟩ := make_fooling_image_terminates foolWitSession 0 foolWitX
  obtain ⟨hX, hsteps⟩ := h3 rfl
  refine ⟨h1, h2 ?_, hX⟩
  rw [hsteps]
  norm_num [n_iterations]

theorem foolingLoop_pair {β γ : Type} (done : β → Bool) (step : β → β) (cx : γ) :
    ∀ (k : ℕ) (xf : β),
      foolingLoop (fun s : γ × β => done s.2) (fun s => (s.1, step s.2)) k (cx, xf)
        = ((cx, (foolingLoop done step k xf).1), (foolingLoop done step k xf).2)
  | 0, xf => rfl
  | k + 1, xf => by
      by_cases hd : done xf
      · simp [foolingLoop, hd]
      · simp only [foolingLoop, if_neg hd]
        rw [foolingLoop_pair done step cx k (step xf)]

/-- C8: `make_fooling_image` never modifies its input array: all updates are
applied to the copy `X_fooling = X.copy()`, so after the call the caller's
buffer still holds its original values, while the returned image is the one
`make_fooling_image` computes. -/
theorem make_fooling_image_preserves_input {H W : ℕ} (m : FoolSession H W)
    (ty : ℕ) (X : ImgR H W) :
    (make_fooling_image_call m ty X).2 = X
    ∧ (make_fooling_image_call m ty X).1 = make_fooling_image m ty X := by
  have hp := foolingLoop_pair (fun Z => m.argmaxScores Z == ty)
    (fooling_step m ty) X n_iterations X
  simp only [make_fooling_image_call, make_fooling_image]
  rw [hp]
  exact ⟨rfl, rfl⟩

/-- Counterexample to C4 as stated: with the checkpoint file absent, the
loading cell raises `ValueError` rather than proceeding unconditionally. -/
theorem squeezenet_load_cell_raises_on_missing_ckpt :
    squeezenet_load_cell (fun _ => false)
      = Except.error ("You need to download SqueezeNet!") := rfl

/-- C4 (amended): the model-loading cell is guarded, not unconditional — it
raises `ValueError("You need to download SqueezeNet!")` exactly when
`os.path.exists(SAVE_PATH)` is false, and loads the model otherwise. -/
theorem squeezenet_load_cell_guarded (f : String → Bool) :
    (f SAVE_PATH = false →
      squeezenet_load_cell f = Except.error ("You need to download SqueezeNet!"))
    ∧ (f SAVE_PATH = true → squeezenet_load_cell f = Except.ok ()) := by
  constructor <;> intro h <;> simp [squeezenet_load_cell, h]

/-- Witness for C4 (amended) in both filesystem states. -/
theorem squeezenet_load_cell_guarded_witness :
    squeezenet_load_cell (fun _ => true) = Except.ok ()
    ∧ squeezenet_load_cell (fun _ => false)
        = Except.error ("You need to download SqueezeNet!") :=
  ⟨(squeezenet_load_cell_guarded (fun _ => true)).2 rfl,
   (squeezenet_load_cell_guarded (fun _ => false)).1 rfl⟩

/-- C5: with the default `blur_every = 10`, every iteration `t` of the
`create_class_visualization` loop clips the image elementwise to the
per-channel interval from `-SQUEEZENET_MEAN/SQUEEZENET_STD` to
`(1 - SQUEEZENET_MEAN)/SQUEEZENET_STD`, and blurs it (Gaussian blur with
sigma = 0.5) exactly at the iterations with `t % 10 = 0` (t = 0, 10, 20, ...)
and at no other iteration. -/
theorem class_vis_iter_clip_blur_schedule {H W : ℕ} (e : VisEnv H W) (t : ℕ)
    (X : ImgQ H W) (hb : e.blur_every = 10) :
    (t % 10 = 0 → class_vis_iter e t X
        = blur_image e.kH e.kW
            (np_clip_channels (squeeze_lo e.mean e.std) (squeeze_hi e.mean e.std)
              (class_vis_core e t X)) (1 / 2))
    ∧ (t % 10 ≠ 0 → class_vis_iter e t X
        = np_clip_channels (squeeze_lo e.mean e.std) (squeeze_hi e.mean e.std)
            (class_vis_core e t X)) := by
  constructor <;> intro h <;> simp [class_vis_iter, hb, h]

/-- Witness for C5: at iteration 10 the image is blurred after the clip, at
iteration 3 it is only clipped. -/
theorem class_vis_iter_clip_blur_schedule_witness :
    class_vis_iter visEnvWit 10 visWitX
      = blur_image visEnvWit.kH visEnvWit.kW
          (np_clip_channels (squeeze_lo visEnvWit.mean visEnvWit.std)
            (squeeze_hi visEnvWit.mean visEnvWit.std)
            (class_vis_core visEnvWit 10 visWitX)) (1 / 2)
    ∧ class_vis_iter visEnvWit 3 visWitX
        = np_clip_channels (squeeze_lo visEnvWit.mean visEnvWit.std)
            (squeeze_hi visEnvWit.mean visEnvWit.std)
            (class_vis_core visEnvWit 3 visWitX) :=
  ⟨(class_vis_iter_clip_blur_schedule visEnvWit 10 visWitX rfl).1 (by decide),
   (class_vis_iter_clip_blur_schedule visEnvWit 3 visWitX rfl).2 (by decide)⟩

/-- C6: `create_class_visualization` starts from random noise.  Run with
`num_iterations = 0` — i.e. before any gradient-ascent step — it returns,
for every target class, the array `255 * np.random.rand(224, 224, 3)` passed
through `preprocess_image` (so the initial image does not depend on
`target_y`); and whenever the `np.random.rand` draws lie in [0, 1), the
pre-preprocessing pixel values lie in [0, 255). -/
theorem create_class_visualization_init (target_y : ℕ) (model : VisModel)
    (mean std : Fin 3 → ℚ) (kH kW : ℚ → Fin 224 → Fin 224 → ℚ)
    (rand : Fin 224 → Fin 224 → Fin 3 → ℚ) (jit : ℕ → ℤ × ℤ)
    (l2_reg learning_rate : ℚ) (blur_every : ℕ) :
    create_class_visualization target_y model mean std kH kW rand jit
        l2_reg learning_rate 0 blur_every = class_vis_X0 mean std rand
    ∧ class_vis_X0 mean std rand
        = preprocess_image mean std (fun h w c => 255 * rand h w c)
    ∧ (∀ h w c, 0 ≤ rand h w c → rand h w c < 1 →
        0 ≤ 255 * rand h w c ∧ 255 * rand h w c < 255) := by
  refine ⟨rfl, rfl, ?_⟩
  intro h w c h0 h1
  constructor
  · exact mul_nonneg (by norm_num) h0
  · linarith

/-- Witness for C6 at a concrete uniform draw of 1/2. -/
theorem create_class_visualization_init_witness :
    create_class_visualization 0 visModelWit (fun _ => 0) (fun _ => 1)
        kIdent224 kIdent224 randWit (fun _ => (0, 0)) (1 / 1000) 25 0 10
      = class_vis_X0 (fun _ => 0) (fun _ => 1) randWit
    ∧ 0 ≤ 255 * randWit 0 0 0 ∧ 255 * randWit 0 0 0 < 255 := by
  obtain ⟨h1, h2, h3⟩ := create_class_visualization_init 0 visModelWit
    (fun _ => 0) (fun _ => 1) kIdent224 kIdent224 randWit (fun _ => (0, 0))
    (1 / 1000) 25 10
  exact ⟨h1, h3 0 0 0 (by norm_num [randWit]) (by norm_num [randWit])⟩

theorem squeeze_lo_le_hi (mean std : Fin 3 → ℚ) (hstd : ∀ c, 0 < std c)
    (c : Fin 3) : squeeze_lo mean std c ≤ squeeze_hi mean std c := by
  unfold squeeze_lo squeeze_hi
  exact (div_le_div_iff_of_pos_right (hstd c)).mpr (by linarith)

theorem np_clip_channels_in_range {H W : ℕ} (mean std : Fin 3 → ℚ)
    (hstd : ∀ c, 0 < std c) (X : ImgQ H W) :
    in_clip_range mean std
      (np_clip_channels (squeeze_lo mean std) (squeeze_hi mean std) X) := by
  intro h w c
  unfold np_clip_channels
  constructor
  · exact le_min (le_max_right _ _) (squeeze_lo_le_hi mean std hstd c)
  · exact min_le_right _ _

theorem weighted_sum_bounds {n : ℕ} (k v : Fin n → ℚ) (lo hi : ℚ)
    (hk0 : ∀ j, 0 ≤ k j) (hk1 : (∑ j, k j) = 1)
    (hv : ∀ j, lo ≤ v j ∧ v j ≤ hi) :
    lo ≤ (∑ j, k j * v j) ∧ (∑ j, k j * v j) ≤ hi := by
  constructor
  · calc lo = (∑ j, k j) * lo := by rw [hk1, one_mul]
      _ = ∑ j, k j * lo := Finset.sum_mul _ _ _
      _ ≤ ∑ j, k j * v j :=
          Finset.sum_le_sum fun j _ => mul_le_mul_of_nonneg_left (hv j).1 (hk0 j)
  · calc (∑ j, k j * v j) ≤ ∑ j, k j * hi :=
          Finset.sum_le_sum fun j _ => mul_le_mul_of_nonneg_left (hv j).2 (hk0 j)
      _ = (∑ j, k j) * hi := (Finset.sum_mul _ _ _).symm
      _ = hi := by rw [hk1, one_mul]

theorem gaussian_filter1d_ax1_in_range {H W : ℕ} (mean std : Fin 3 → ℚ)
    (k : Fin H → Fin H → ℚ) (hk : row_stochastic k) (X : ImgQ H W)
    (hX : in_clip_range mean std X) :
    in_clip_range mean std (gaussian_filter1d_ax1 k X) := by
  intro h w c
  exact weighted_sum_bounds (k h) (fun h2 => X h2 w c) _ _
    (fun j => hk.1 h j) (hk.2 h) (fun j => hX j w c)

theorem gaussian_filter1d_ax2_in_range {H W : ℕ} (mean std : Fin 3 → ℚ)
    (k : Fin W → Fin W → ℚ) (hk : row_stochastic k) (X : ImgQ H W)
    (hX : in_clip_range mean std X) :
    in_clip_range mean std (gaussian_filter1d_ax2 k X) := by
  intro h w c
  exact weighted_sum_bounds (k w) (fun w2 => X h w2 c) _ _
    (fun j => hk.1 w j) (hk.2 w) (fun j => hX h j c)

theorem blur_image_in_range {H W : ℕ} (mean std : Fin 3 → ℚ)
    (kH : ℚ → Fin H → Fin H → ℚ) (kW : ℚ → Fin W → Fin W → ℚ) (sigma : ℚ)
    (hkH : row_stochastic (kH sigma)) (hkW : row_stochastic (kW sigma))
    (X : ImgQ H W) (hX : in_clip_range mean std X) :
    in_clip_range mean std (blur_image kH kW X sigma) :=
  gaussian_filter1d_ax2_in_range mean std (kW sigma) hkW _
    (gaussian_filter1d_ax1_in_range mean std (kH sigma) hkH X hX)

theorem class_vis_iter_in_range {H W : ℕ} (e : VisEnv H W)
    (hstd : ∀ c, 0 < e.std c)
    (hkH : row_stochastic (e.kH (1 / 2))) (hkW : row_stochastic (e.kW (1 / 2)))
    (t : ℕ) (X : ImgQ H W) :
    in_clip_range e.mean e.std (class_vis_iter e t X) := by
  have hclip := np_clip_channels_in_range e.mean e.std hstd (class_vis_core e t X)
  simp only [class_vis_iter]
  by_cases hb : (t % e.blur_every == 0) = true
  · rw [if_pos hb]
    exact blur_image_in_range e.mean e.std e.kH e.kW (1 / 2) hkH hkW _ hclip
  · rw [if_neg hb]
    exact hclip

theorem class_vis_run_in_range {H W : ℕ} (e : VisEnv H W)
    (hstd : ∀ c, 0 < e.std c)
    (hkH : row_stochastic (e.kH (1 / 2))) (hkW : row_stochastic (e.kW (1 / 2))) :
    ∀ (k t : ℕ) (X : ImgQ H W),
      in_clip_range e.mean e.std (class_vis_run e t (k + 1) X)
  | 0, t, X => class_vis_iter_in_range e hstd hkH hkW t X
  | k + 1, t, X =>
      class_vis_run_in_range e hstd hkH hkW k (t + 1) (class_vis_iter e t X)

/-- C10: every entry of the image returned by `create_class_visualization`
lies in the per-channel clip interval from `-SQUEEZENET_MEAN/SQUEEZENET_STD`
to `(1 - SQUEEZENET_MEAN)/SQUEEZENET_STD`: the clip re-establishes the
bounds at every iteration, and the Gaussian blur — a weighted average with
nonnegative weights summing to 1 — preserves them, so they are an invariant
of every loop iteration from the first clip onward (any positive number of
iterations; the standard deviations are positive and the sigma = 0.5 blur
kernels are row-stochastic). -/
theorem create_class_visualization_in_clip_range (target_y : ℕ)
    (model : VisModel) (mean std : Fin 3 → ℚ)
    (kH kW : ℚ → Fin 224 → Fin 224 → ℚ)
    (rand : Fin 224 → Fin 224 → Fin 3 → ℚ) (jit : ℕ → ℤ × ℤ)
    (l2_reg learning_rate : ℚ) (num_iterations blur_every : ℕ)
    (hstd : ∀ c, 0 < std c)
    (hkH : row_stochastic (kH (1 / 2))) (hkW : row_stochastic (kW (1 / 2)))
    (hn : 1 ≤ num_iterations) :
    in_clip_range mean std
      (create_class_visualization target_y model mean std kH kW rand jit
        l2_reg learning_rate num_iterations blur_every) := by
  obtain ⟨k, rfl⟩ : ∃ k, num_iterations = k + 1 := ⟨num_iterations - 1, by omega⟩
  exact class_vis_run_in_range _ hstd hkH hkW k 0 _

/-- Witness for C10: identity blur kernels (row-stochastic), unit standard
deviations, one iteration. -/
theorem create_class_visualization_in_clip_range_witness :
    row_stochastic (kIdent224 (1 / 2))
    ∧ in_clip_range (fun _ => 0) (fun _ => 1)
        (create_class_visualization 76 visModelWit (fun _ => 0) (fun _ => 1)
          kIdent224 kIdent224 randWit (fun _ => (0, 0)) (1 / 1000) 25 1 10) := by
  have hk : row_stochastic (kIdent224 (1 / 2)) := by
    constructor
    · intro i j
      unfold kIdent224 kIdent
      by_cases hij : j = i <;> simp [hij]
    · intro i
      simp [kIdent224, kIdent]
  refine ⟨hk, ?_⟩
  exact create_class_visualization_in_clip_range 76 visModelWit
    (fun _ => 0) (fun _ => 1) kIdent224 kIdent224 randWit (fun _ => (0, 0))
    (1 / 1000) 25 1 10 (fun _ => by norm_num) hk hk (by norm_num)
